import Mathlib

/-!
Shallow embedding of `metagpt/actions/write_prd.py` (class `WritePRD`).

Modelling conventions:
* The external LLM (`self._aask`) is a deterministic function from prompts to
  response strings.  A prompt built by a Python `str.format` call is embedded
  as a tagged value (`Prompt`) carrying exactly the data the source
  interpolates into the template; the verbatim prompt prose carries no logic.
* `CONFIG.project_name` / `CONFIG.project_path` are strings where `""` plays
  the role of Python falsy (`None` or `""`): the source only ever tests them
  with truthiness (`if CONFIG.project_path:`, `if not CONFIG.project_name:`).
* File repositories (`FileRepository`) are association lists from filename to
  content with dict-like upsert semantics.
* Python exceptions raised by fallible collaborators (`_aask_v1` output
  parsing, `json.loads`, `mermaid_to_file`, `FileRepository.save_as`) are
  `Except String`.  Every operation returns its result together with the
  final state, because in Python the side effects performed before an
  exception persist.
* Observable side effects (oracle calls, store writes/deletes/reads,
  `git_repo.rename_root`, diagram rendering, PDF export) are appended to an
  event trace in the state.
-/

namespace WritePrd

/-- Constants from `metagpt.const` (the exact string values are immaterial to
the orchestration logic; the names match the source). -/
def REQUIREMENT_FILENAME : String := "requirement.txt"

def BUGFIX_FILENAME : String := "bugfix.txt"

def PRDS_FILE_REPO : String := "docs/prds"

def COMPETITIVE_ANALYSIS_FILE_REPO : String := "resources/competitive_analysis"

/-- `metagpt.schema.Document`: filename plus content (the fields the source
reads and writes). -/
structure Document where
  filename : String
  content : String
deriving DecidableEq, Repr

/-- The two recognized values of `CONFIG.prompt_format` (keys of the
`templates` dict). -/
inductive Fmt
  | json
  | markdown
deriving DecidableEq, Repr

/-- A prompt value: one constructor per `.format` call on a prompt template in
the source, carrying exactly the interpolated data.
* `isBugfix content` — `IS_BUGFIX_PROMPT.format(content=content)`
* `isRelative oldPrd requirements` —
  `IS_RELATIVE_PROMPT.format(old_prd=..., requirements=...)`
* `merge requirements oldPrd projectName` —
  `MERGE_PROMPT.format(requirements=..., old_prd=..., project_name=...)`
* `generate requirements searchInfo projectName fmt` —
  `prompt_template.format(...)` in `_run_new_requirement`; `requirements` is
  the Python list passed in, `fmt` selects the template variant. -/
inductive Prompt
  | isBugfix (content : String)
  | isRelative (oldPrd requirements : String)
  | merge (requirements oldPrd projectName : String)
  | generate (requirements : List String) (searchInfo : String)
      (projectName : String) (fmt : Fmt)
deriving DecidableEq, Repr

/-- Observable side-effect events, in program order. -/
inductive Ev
  | oracleCall (p : Prompt)
  | docsSave (filename content : String)
  | docsDelete (filename : String)
  | prdsGetAll
  | prdsSave (filename content : String)
  | renameRoot (name : String)
  | renderDiagram (pathname : String)
  | exportPdf (filename : String)
deriving DecidableEq, Repr

/-- The structured result of a successful `_aask_v1` call (an `ActionOutput`):
the `"Project Name"` field of `instruct_content.dict()` and the serialized
`instruct_content.json(ensure_ascii=False)` string. -/
structure PrdOut where
  projectName : String
  json : String
deriving DecidableEq, Repr

/-- The duck-typed argument of `_rename_workspace`: either an `ActionOutput`
or raw text (the `isinstance(prd, ActionOutput)` probe in the source). -/
inductive PrdArg
  | actionOutput (p : PrdOut)
  | rawText (t : String)
deriving DecidableEq, Repr

/-- A `FileRepository`: filename-to-content association list. -/
abbrev Repo := List (String × String)

/-- `FileRepository.get`: `none` models a missing document. -/
def repoGet : Repo → String → Option String
  | [], _ => none
  | kv :: rest, fn => if kv.1 = fn then some kv.2 else repoGet rest fn

/-- `FileRepository.save`: dict-like upsert (replace in place, else append). -/
def repoSave : Repo → String → String → Repo
  | [], fn, c => [(fn, c)]
  | kv :: rest, fn, c =>
    if kv.1 = fn then (fn, c) :: rest else kv :: repoSave rest fn c

/-- `FileRepository.delete`: idempotent removal. -/
def repoDelete : Repo → String → Repo
  | [], _ => []
  | kv :: rest, fn =>
    if kv.1 = fn then repoDelete rest fn else kv :: repoDelete rest fn

/-- `FileRepository.get_all`: every stored document. -/
def repoGetAll (r : Repo) : List Document :=
  r.map (fun kv => ⟨kv.1, kv.2⟩)

/-- `Documents.docs`: the ChangeSet, a dict from filename to Document. -/
abbrev ChangeSet := List (String × Document)

/-- Python dict assignment `docs[filename] = doc`: replace in place if the
key exists (CPython dicts keep the original position), else append. -/
def csInsert : ChangeSet → String → Document → ChangeSet
  | [], fn, d => [(fn, d)]
  | kv :: rest, fn, d =>
    if kv.1 = fn then (fn, d) :: rest else kv :: csInsert rest fn d

/-- `metagpt.schema.BugFixContext` (the field the source sets). -/
structure BugFixContext where
  filename : String
deriving DecidableEq, Repr

/-- Result of `WritePRD.run`: either the bug-route `Message` whose
`instruct_content` is a `BugFixContext` (the `cause_by=FixBug`,
`send_to="Alex"` metadata carries no orchestration logic and is omitted), or
the `ActionOutput` whose `instruct_content` is the `Documents` ChangeSet. -/
inductive RunResult
  | bugFix (ctx : BugFixContext)
  | output (changeFiles : ChangeSet)
deriving DecidableEq, Repr

/-- Mutable state threaded through a run: the `CONFIG` project identity
slots, the two file repositories, and the event trace. -/
structure St where
  projectName : String
  projectPath : String
  docs : Repo
  prds : Repo
  events : List Ev
deriving DecidableEq, Repr

/-- External collaborators of one run (fixed for the run):
* `oracle` — `self._aask`, total: a failed transport surfaces in `parse`.
* `parse` — the structured-output extraction inside `_aask_v1`; an
  `Except.error` models the exception `_aask_v1` raises on a malformed
  response.
* `jsonLoads` — `json.loads` restricted to the string-valued view this file
  reads; `Except.error` models `json.JSONDecodeError`.
* `renderMermaid` — `mermaid_to_file(quadrant_chart, pathname)`; an error
  models a raised exception in the renderer (or the `mkdir` before it).
* `savePdf` — `FileRepository.save_as(doc, ".md", PRD_PDF_FILE_REPO)`.
* `newFilename` — `FileRepository.new_filename()` (without extension).
* `parseStrProjectName` — `CodeParser.parse_str(block="Project Name", ...)`.
* `promptFormat` — `CONFIG.prompt_format`, the default `format` argument. -/
structure Env where
  oracle : Prompt → String
  parse : String → Except String PrdOut
  jsonLoads : String → Except String (List (String × String))
  renderMermaid : String → String → Except String Unit
  savePdf : Document → Except String Unit
  newFilename : String
  parseStrProjectName : String → String
  promptFormat : Fmt

/-- Python `"YES" in res` on the character list of `res`. -/
def hasSubYES : List Char → Bool
  | [] => false
  | c :: rest => (c == 'Y' && rest.take 2 == ['E', 'S']) || hasSubYES rest

/-- Python `"YES" in res`. -/
def hasYES (s : String) : Bool :=
  hasSubYES s.data

/-- Split a character list on a separator character (the semantics of
Python `str.split(sep)` / `String.splitOn`, written structurally). -/
def splitChar (sep : Char) : List Char → List String
  | [] => [""]
  | c :: rest =>
    match splitChar sep rest with
    | [] => [""]
    | seg :: segs =>
      if c = sep then "" :: seg :: segs
      else String.mk (c :: seg.data) :: segs

/-- Join segments with `"."`. -/
def joinDot : List String → String
  | [] => ""
  | [seg] => seg
  | seg :: rest => seg ++ "." ++ joinDot rest

/-- `pathlib.Path(p).name`: the last non-empty, non-`"."` slash-separated
segment (POSIX paths; drive letters are not modelled). -/
def pathName (p : String) : String :=
  (((splitChar '/' p.data).filter (fun seg => !(seg == "") && !(seg == "."))).getLast?).getD ""

/-- `Path(filename).with_suffix("")`: drop the last extension. -/
def withSuffixEmpty (fn : String) : String :=
  let parts := splitChar '.' fn.data
  if parts.length ≤ 1 then fn else joinDot parts.dropLast

/-- The output pathname of `_save_competitive_analysis` (the
`CONFIG.git_repo.workdir` prefix is a constant of the run and omitted). -/
def competitivePath (filename : String) : String :=
  COMPETITIVE_ANALYSIS_FILE_REPO ++ "/" ++ withSuffixEmpty filename

/-- Append one event to the trace. -/
def logEv (s : St) (e : Ev) : St :=
  { s with events := s.events ++ [e] }

/-- `self._aask(prompt)`: query the oracle and record the call. -/
def aask (env : Env) (s : St) (p : Prompt) : String × St :=
  (env.oracle p, logEv s (Ev.oracleCall p))

/-- `self._aask_v1(prompt, "prd", OUTPUT_MAPPING, format=...)`: oracle call
followed by structured parsing; a parse failure raises. -/
def aask_v1 (env : Env) (s : St) (p : Prompt) : Except String PrdOut × St :=
  let (res, s) := aask env s p
  (env.parse res, s)

/-- `WritePRD._is_bugfix`: build the classification prompt, ask, and test
`"YES" in res`. -/
def is_bugfix (env : Env) (s : St) (content : String) : Bool × St :=
  let (res, s) := aask env s (Prompt.isBugfix content)
  (hasYES res, s)

/-- `WritePRD._is_relative_to`: same YES-by-substring contract over the pair
of documents. -/
def is_relative_to (env : Env) (s : St) (newRequirementDoc oldPrdDoc : Document) :
    Bool × St :=
  let (res, s) := aask env s (Prompt.isRelative oldPrdDoc.content newRequirementDoc.content)
  (hasYES res, s)

/-- Project-name extraction in `_rename_workspace`: the `"Project Name"`
field of a structured output, or `CodeParser.parse_str` on raw text. -/
def wsNameOf (env : Env) : PrdArg → String
  | PrdArg.actionOutput p => p.projectName
  | PrdArg.rawText t => env.parseStrProjectName t

/-- `WritePRD._rename_workspace`.  Control flow of the source:
the early return fires exactly when `CONFIG.project_path` is truthy and
`CONFIG.project_name` is falsy; otherwise the name is bound from the
candidate when still falsy and `CONFIG.git_repo.rename_root` is invoked. -/
def rename_workspace (env : Env) (s : St) (prd : PrdArg) : St :=
  if s.projectPath ≠ "" ∧ s.projectName = "" then
    { s with projectName := pathName s.projectPath }
  else
    let s := if s.projectName = "" then { s with projectName := wsNameOf env prd } else s
    logEv s (Ev.renameRoot s.projectName)

/-- `WritePRD._merge`: bind a falsy project name from the project path, build
the merge prompt with the bound name, regenerate the PRD, replace the
document's content wholesale (same filename), then resolve the name.
(`if not CONFIG.project_name: CONFIG.project_name = Path(...).name` is
modelled as assigning the unchanged value when the name is already bound,
which is observationally identical.) -/
def merge (env : Env) (s : St) (newRequirementDoc prdDoc : Document) :
    Except String Document × St :=
  let nm := if s.projectName = "" then pathName s.projectPath else s.projectName
  let s := { s with projectName := nm }
  let (r, s) := aask_v1 env s
    (Prompt.merge newRequirementDoc.content prdDoc.content nm)
  match r with
  | Except.error e => (Except.error e, s)
  | Except.ok prd =>
    let prdDoc := { prdDoc with content := prd.json }
    let s := rename_workspace env s (PrdArg.actionOutput prd)
    (Except.ok prdDoc, s)

/-- The constant `info` string of `_run_new_requirement` (the search step is
stubbed out in the source: `rsp = ""` and `sas.result` is empty). -/
def searchInfo : String := "### Search Results\n\n\n### Search Summary\n"

/-- `WritePRD._run_new_requirement`: build the generation prompt (the
template variant is selected by `CONFIG.prompt_format`), ask, then resolve
the project name from the structured result. -/
def run_new_requirement (env : Env) (s : St) (requirements : List String) :
    Except String PrdOut × St :=
  let projectName := if s.projectName ≠ "" then s.projectName else ""
  let (r, s) := aask_v1 env s
    (Prompt.generate requirements searchInfo projectName env.promptFormat)
  match r with
  | Except.error e => (Except.error e, s)
  | Except.ok prd => (Except.ok prd, rename_workspace env s (PrdArg.actionOutput prd))

/-- Field lookup in the decoded JSON map (`m.get(key)`). -/
def lookupField : List (String × String) → String → Option String
  | [], _ => none
  | kv :: rest, k => if kv.1 = k then some kv.2 else lookupField rest k

/-- `WritePRD._save_competitive_analysis`: decode the document's JSON
content, return silently when the chart field is absent or empty (Python
falsy), otherwise render it (recording the attempt). -/
def save_competitive_analysis (env : Env) (s : St) (prdDoc : Document) :
    Except String Unit × St :=
  match env.jsonLoads prdDoc.content with
  | Except.error e => (Except.error e, s)
  | Except.ok m =>
    match lookupField m "Competitive Quadrant Chart" with
    | none => (Except.ok (), s)
    | some qc =>
      if qc = "" then (Except.ok (), s)
      else
        let s := logEv s (Ev.renderDiagram (competitivePath prdDoc.filename))
        (env.renderMermaid qc (competitivePath prdDoc.filename), s)

/-- `WritePRD._save_pdf`. -/
def save_pdf (env : Env) (s : St) (prdDoc : Document) : Except String Unit × St :=
  let s := logEv s (Ev.exportPdf prdDoc.filename)
  (env.savePdf prdDoc, s)

/-- The shared tail of `_update_prd` (source lines 425-428): persist the new
document in the PRD store, then the two derived side effects, then return
the document.  Exceptions propagate. -/
def finishDoc (env : Env) (s : St) (newPrdDoc : Document) :
    Except String (Option Document) × St :=
  let s := { s with prds := repoSave s.prds newPrdDoc.filename newPrdDoc.content }
  let s := logEv s (Ev.prdsSave newPrdDoc.filename newPrdDoc.content)
  match save_competitive_analysis env s newPrdDoc with
  | (Except.error e, s) => (Except.error e, s)
  | (Except.ok _, s) =>
    match save_pdf env s newPrdDoc with
    | (Except.error e, s) => (Except.error e, s)
    | (Except.ok _, s) => (Except.ok (some newPrdDoc), s)

/-- `WritePRD._update_prd`: generate when there is no PRD, merge when the
requirement is related, otherwise return `None`. -/
def update_prd (env : Env) (s : St) (requirementDoc : Document)
    (prdDoc : Option Document) : Except String (Option Document) × St :=
  match prdDoc with
  | none =>
    match run_new_requirement env s [requirementDoc.content] with
    | (Except.error e, s) => (Except.error e, s)
    | (Except.ok prd, s) =>
      finishDoc env s ⟨env.newFilename ++ ".json", prd.json⟩
  | some pd =>
    match is_relative_to env s requirementDoc pd with
    | (false, s) => (Except.ok none, s)
    | (true, s) =>
      match merge env s requirementDoc pd with
      | (Except.error e, s) => (Except.error e, s)
      | (Except.ok newDoc, s) => finishDoc env s newDoc

/-- The `for prd_doc in prd_docs` loop of `WritePRD.run`: evaluate each
existing PRD in order, recording changed documents; an exception aborts the
remaining iterations. -/
def scanPrds (env : Env) (requirementDoc : Document) :
    List Document → ChangeSet → St → Except String ChangeSet × St
  | [], cs, s => (Except.ok cs, s)
  | pd :: rest, cs, s =>
    match update_prd env s requirementDoc (some pd) with
    | (Except.error e, s) => (Except.error e, s)
    | (Except.ok none, s) => scanPrds env requirementDoc rest cs s
    | (Except.ok (some d), s) => scanPrds env requirementDoc rest (csInsert cs d.filename d) s

/-- `WritePRD.run`.  The requirement document is read from the docs
repository (missing document: fatal).  The `format` parameter of the source
defaults to `CONFIG.prompt_format` and is not forwarded to the branch
helpers, which read the same configured default (`env.promptFormat`). -/
def run (env : Env) (s : St) : Except String RunResult × St :=
  match repoGet s.docs REQUIREMENT_FILENAME with
  | none => (Except.error "requirement document not found", s)
  | some reqContent =>
    let requirementDoc : Document := ⟨REQUIREMENT_FILENAME, reqContent⟩
    match is_bugfix env s requirementDoc.content with
    | (true, s) =>
      let s := { s with docs := repoSave s.docs BUGFIX_FILENAME requirementDoc.content }
      let s := logEv s (Ev.docsSave BUGFIX_FILENAME requirementDoc.content)
      let s := { s with docs := repoSave s.docs REQUIREMENT_FILENAME "" }
      let s := logEv s (Ev.docsSave REQUIREMENT_FILENAME "")
      (Except.ok (RunResult.bugFix ⟨BUGFIX_FILENAME⟩), s)
    | (false, s) =>
      let s := { s with docs := repoDelete s.docs BUGFIX_FILENAME }
      let s := logEv s (Ev.docsDelete BUGFIX_FILENAME)
      let prdDocs := repoGetAll s.prds
      let s := logEv s Ev.prdsGetAll
      match scanPrds env requirementDoc prdDocs [] s with
      | (Except.error e, s) => (Except.error e, s)
      | (Except.ok cs, s) =>
        if cs.isEmpty then
          match update_prd env s requirementDoc none with
          | (Except.error e, s) => (Except.error e, s)
          | (Except.ok none, s) => (Except.ok (RunResult.output cs), s)
          | (Except.ok (some d), s) =>
            (Except.ok (RunResult.output (csInsert cs d.filename d)), s)
        else (Except.ok (RunResult.output cs), s)

/-! ## Classifiers over the event trace -/

/-- Events touching the PRD store (reads and writes). -/
def isPrdEvent : Ev → Bool
  | Ev.prdsGetAll => true
  | Ev.prdsSave _ _ => true
  | _ => false

/-- `rename_root` events. -/
def isRenameRoot : Ev → Bool
  | Ev.renameRoot _ => true
  | _ => false

/-- Oracle calls carrying a generation prompt. -/
def isGenerateCall : Ev → Bool
  | Ev.oracleCall (Prompt.generate _ _ _ _) => true
  | _ => false

/-- Number of `rename_root` invocations in a trace. -/
def countRenames (evs : List Ev) : Nat :=
  (evs.filter isRenameRoot).length

/-- Whether the relevance classifier's oracle answer for this PRD contains
`YES` (the branch condition of the scan loop). -/
def isRelatedDoc (env : Env) (reqContent : String) (d : Document) : Bool :=
  hasYES (env.oracle (Prompt.isRelative d.content reqContent))

/-- Existing PRDs whose relevance answer contains `YES`: the keys the scan
loop merges. -/
def relatedKeys (env : Env) (reqContent : String) (r : Repo) : List String :=
  ((repoGetAll r).filter (isRelatedDoc env reqContent)).map Document.filename

/-- The state after the non-bug branch of the classification step: the
stale bug-report entry deleted, with the corresponding trace (used to phrase
`run` equations). -/
def postClassify (s : St) (content : String) : St :=
  { s with docs := repoDelete s.docs BUGFIX_FILENAME,
           events := s.events ++ [Ev.oracleCall (Prompt.isBugfix content),
             Ev.docsDelete BUGFIX_FILENAME, Ev.prdsGetAll] }

/-- The run's fallible collaborators all succeed (the setting the
success-path claims quantify over). -/
structure EnvOk (env : Env) : Prop where
  parse_ok : ∀ r, ∃ p, env.parse r = Except.ok p
  jsonLoads_ok : ∀ c, ∃ m, env.jsonLoads c = Except.ok m
  render_ok : ∀ qc path, env.renderMermaid qc path = Except.ok ()
  savePdf_ok : ∀ d, env.savePdf d = Except.ok ()

/-! ## Concrete collaborators and states used by witnesses and
counterexamples -/

/-- An environment whose oracle always answers `YES` and whose other
collaborators are benign. -/
def envYes : Env where
  oracle := fun _ => "YES"
  parse := fun _ => Except.error "invalid response"
  jsonLoads := fun _ => Except.ok []
  renderMermaid := fun _ _ => Except.ok ()
  savePdf := fun _ => Except.ok ()
  newFilename := "20240101000000"
  parseStrProjectName := fun _ => ""
  promptFormat := Fmt.json

/-- A state with both project identity slots bound. -/
def stBoth : St where
  projectName := "proj"
  projectPath := "/tmp/ws"
  docs := []
  prds := []
  events := []

/-- A state with a bound name but no bound path. -/
def stNameOnly : St where
  projectName := "proj"
  projectPath := ""
  docs := []
  prds := []
  events := []

/-- A state with a bound path but no bound name. -/
def stPathOnly : St where
  projectName := ""
  projectPath := "/tmp/game_2048"
  docs := []
  prds := []
  events := []

/-- A state holding a requirement document and one existing PRD. -/
def stReq : St where
  projectName := ""
  projectPath := ""
  docs := [(REQUIREMENT_FILENAME, "crash on login")]
  prds := [("0001.json", "old prd")]
  events := []

/-- A structured candidate PRD whose project-name field is `"other"`. -/
def prdOther : PrdArg := PrdArg.actionOutput ⟨"other", "j"⟩

/-- An environment whose relevance classifier answers `YES`, whose bug
classifier answers `NO`, and whose structured-output parsing always fails. -/
def envMergeFail : Env where
  oracle := fun p =>
    match p with
    | Prompt.isBugfix _ => "NO"
    | Prompt.isRelative _ _ => "YES, related"
    | _ => "free text"
  parse := fun _ => Except.error "merge parse failed"
  jsonLoads := fun _ => Except.ok []
  renderMermaid := fun _ _ => Except.ok ()
  savePdf := fun _ => Except.ok ()
  newFilename := "20240101000000"
  parseStrProjectName := fun _ => ""
  promptFormat := Fmt.json

/-- A state with a requirement and two existing PRDs. -/
def stTwoPrds : St where
  projectName := ""
  projectPath := ""
  docs := [(REQUIREMENT_FILENAME, "add x")]
  prds := [("a.json", "ca"), ("b.json", "cb")]
  events := []

/-- An environment in which merging succeeds but the competitive-analysis
diagram renderer fails. -/
def envRenderFail : Env where
  oracle := fun p =>
    match p with
    | Prompt.isBugfix _ => "NO"
    | Prompt.isRelative _ _ => "YES, related"
    | _ => "free text"
  parse := fun _ => Except.ok ⟨"pn", "merged-json"⟩
  jsonLoads := fun _ => Except.ok [("Competitive Quadrant Chart", "chart-src")]
  renderMermaid := fun _ _ => Except.error "render failed"
  savePdf := fun _ => Except.ok ()
  newFilename := "20240101000000"
  parseStrProjectName := fun _ => ""
  promptFormat := Fmt.json

/-- A state with a requirement and one existing PRD. -/
def stOnePrd : St where
  projectName := ""
  projectPath := ""
  docs := [(REQUIREMENT_FILENAME, "add x")]
  prds := [("a.json", "old prd")]
  events := []

/-- An environment whose JSON decoding yields a chart field only for the
content `"with-chart"`, and whose renderer and exporter both fail. -/
def envSideFail : Env where
  oracle := fun _ => "NO"
  parse := fun _ => Except.error "unused"
  jsonLoads := fun c =>
    if c = "with-chart" then Except.ok [("Competitive Quadrant Chart", "chart-src")]
    else Except.ok []
  renderMermaid := fun _ _ => Except.error "render failed"
  savePdf := fun _ => Except.error "pdf failed"
  newFilename := "20240101000000"
  parseStrProjectName := fun _ => ""
  promptFormat := Fmt.json

/-- An environment in which every collaborator succeeds: the bug classifier
answers `NO`, and the relevance classifier answers `YES` exactly for the PRD
content `"ca"`. -/
def envAllOk : Env where
  oracle := fun p =>
    match p with
    | Prompt.isBugfix _ => "NO"
    | Prompt.isRelative oldPrd _ => if oldPrd = "ca" then "YES, related" else "NO, unrelated"
    | _ => "free text"
  parse := fun _ => Except.ok ⟨"pn", "merged-json"⟩
  jsonLoads := fun _ => Except.ok []
  renderMermaid := fun _ _ => Except.ok ()
  savePdf := fun _ => Except.ok ()
  newFilename := "20240101000000"
  parseStrProjectName := fun _ => ""
  promptFormat := Fmt.json

/-- A state with a requirement document, no project identity, and no
existing PRDs. -/
def stNoPrds : St where
  projectName := ""
  projectPath := ""
  docs := [(REQUIREMENT_FILENAME, "add x")]
  prds := []
  events := []

/-! ## Small facts about the store -/

theorem repoGet_save_self (r : Repo) (fn c : String) :
    repoGet (repoSave r fn c) fn = some c := by
  induction r with
  | nil => simp [repoSave, repoGet]
  | cons kv rest ih =>
    by_cases h : kv.1 = fn
    · simp [repoSave, repoGet, h]
    · simp [repoSave, repoGet, h, ih]

theorem csInsert_append (cs : ChangeSet) (fn : String) (d : Document)
    (h : fn ∉ cs.map Prod.fst) :
    csInsert cs fn d = cs ++ [(fn, d)] := by
  induction cs with
  | nil => rfl
  | cons kv rest ih =>
    simp only [List.map_cons, List.mem_cons] at h
    push_neg at h
    simp only [csInsert, List.cons_append]
    rw [if_neg (fun hc => h.1 hc.symm), ih h.2]

theorem repoGetAll_filenames (r : Repo) :
    (repoGetAll r).map Document.filename = r.map Prod.fst := by
  simp [repoGetAll]

/-! ## Success-path shapes of the orchestration steps -/

theorem rename_workspace_shape (env : Env) (s : St) (prd : PrdArg) :
    (rename_workspace env s prd).docs = s.docs ∧
    (rename_workspace env s prd).prds = s.prds ∧
    (rename_workspace env s prd).projectPath = s.projectPath ∧
    ∃ u, (rename_workspace env s prd).events = s.events ++ u ∧
      ∀ e ∈ u, isGenerateCall e = false := by
  unfold rename_workspace
  by_cases h : s.projectPath ≠ "" ∧ s.projectName = ""
  · simp only [if_pos h]
    exact ⟨by simp, by simp, by simp, ⟨[], by simp, by simp⟩⟩
  · by_cases h2 : s.projectName = ""
    · simp only [if_neg h, if_pos h2, logEv]
      exact ⟨by simp, by simp, by simp,
        ⟨[Ev.renameRoot (wsNameOf env prd)], by simp, by simp [isGenerateCall]⟩⟩
    · simp only [if_neg h, if_neg h2, logEv]
      exact ⟨by simp, by simp, by simp,
        ⟨[Ev.renameRoot s.projectName], by simp, by simp [isGenerateCall]⟩⟩

theorem save_competitive_analysis_ok (env : Env) (hok : EnvOk env) (s : St)
    (d : Document) :
    ∃ u, save_competitive_analysis env s d =
        (Except.ok (), { s with events := s.events ++ u }) ∧
      ∀ e ∈ u, isGenerateCall e = false := by
  obtain ⟨m, hm⟩ := hok.jsonLoads_ok d.content
  cases hq : lookupField m "Competitive Quadrant Chart" with
  | none => exact ⟨[], by simp [save_competitive_analysis, hm, hq], by simp⟩
  | some qc =>
    by_cases hqe : qc = ""
    · exact ⟨[], by simp [save_competitive_analysis, hm, hq, hqe], by simp⟩
    · exact ⟨[Ev.renderDiagram (competitivePath d.filename)],
        by simp [save_competitive_analysis, hm, hq, hqe, hok.render_ok, logEv],
        by simp [isGenerateCall]⟩

theorem finishDoc_ok (env : Env) (hok : EnvOk env) (s : St) (d : Document) :
    ∃ u,
      finishDoc env s d =
        (Except.ok (some d),
          { s with prds := repoSave s.prds d.filename d.content,
                   events := s.events ++ [Ev.prdsSave d.filename d.content] ++ u }) ∧
      ∀ e ∈ u, isGenerateCall e = false := by
  obtain ⟨u1, hca, hu1⟩ := save_competitive_analysis_ok env hok
    (logEv { s with prds := repoSave s.prds d.filename d.content }
      (Ev.prdsSave d.filename d.content)) d
  refine ⟨u1 ++ [Ev.exportPdf d.filename], ?_, ?_⟩
  · simp only [logEv] at hca
    simp only [finishDoc, logEv, hca, save_pdf, hok.savePdf_ok, logEv]
    simp [List.append_assoc]
  · intro e he
    rcases List.mem_append.mp he with he | he
    · exact hu1 e he
    · simp only [List.mem_singleton] at he
      subst he
      rfl

theorem merge_ok (env : Env) (hok : EnvOk env) (s : St) (reqDoc d : Document) :
    ∃ (prd : PrdOut) (s2 : St) (u : List Ev),
      merge env s reqDoc d = (Except.ok { d with content := prd.json }, s2) ∧
      s2.docs = s.docs ∧ s2.prds = s.prds ∧ s2.projectPath = s.projectPath ∧
      s2.events = s.events ++ u ∧ (∀ e ∈ u, isGenerateCall e = false) := by
  obtain ⟨prd, hp⟩ := hok.parse_ok (env.oracle
    (Prompt.merge reqDoc.content d.content
      (if s.projectName = "" then pathName s.projectPath else s.projectName)))
  have key : merge env s reqDoc d =
      (Except.ok { d with content := prd.json },
        rename_workspace env
          (logEv
            { s with projectName :=
                if s.projectName = "" then pathName s.projectPath else s.projectName }
            (Ev.oracleCall (Prompt.merge reqDoc.content d.content
              (if s.projectName = "" then pathName s.projectPath else s.projectName))))
          (PrdArg.actionOutput prd)) := by
    simp only [merge, aask_v1, aask, logEv, hp]
  obtain ⟨hdocs, hprds, hpath2, u2, hev, hu⟩ := rename_workspace_shape env
    (logEv
      { s with projectName :=
          if s.projectName = "" then pathName s.projectPath else s.projectName }
      (Ev.oracleCall (Prompt.merge reqDoc.content d.content
        (if s.projectName = "" then pathName s.projectPath else s.projectName))))
    (PrdArg.actionOutput prd)
  simp only [logEv] at hdocs hprds hpath2 hev key
  refine ⟨prd, _, Ev.oracleCall (Prompt.merge reqDoc.content d.content
      (if s.projectName = "" then pathName s.projectPath else s.projectName)) :: u2,
    key, hdocs, hprds, hpath2, ?_, ?_⟩
  · rw [hev]; simp
  · intro e he
    rcases List.mem_cons.mp he with he | he
    · subst he; rfl
    · exact hu e he

theorem update_prd_not_related (env : Env) (s : St) (reqDoc d : Document)
    (h : isRelatedDoc env reqDoc.content d = false) :
    update_prd env s reqDoc (some d) =
      (Except.ok none,
        logEv s (Ev.oracleCall (Prompt.isRelative d.content reqDoc.content))) := by
  simp only [update_prd, is_relative_to, aask, isRelatedDoc] at h ⊢
  rw [h]

theorem update_prd_related (env : Env) (hok : EnvOk env) (s : St)
    (reqDoc d : Document)
    (h : isRelatedDoc env reqDoc.content d = true) :
    ∃ (prd : PrdOut) (s2 : St) (u : List Ev),
      update_prd env s reqDoc (some d) =
        (Except.ok (some { d with content := prd.json }), s2) ∧
      s2.prds = repoSave s.prds d.filename prd.json ∧
      s2.events = s.events ++ u ∧ (∀ e ∈ u, isGenerateCall e = false) := by
  obtain ⟨prd, sm, um, hmeq, hmdocs, hmprds, hmpath, hmev, hmu⟩ :=
    merge_ok env hok
      (logEv s (Ev.oracleCall (Prompt.isRelative d.content reqDoc.content))) reqDoc d
  obtain ⟨uf, hfeq, hfu⟩ := finishDoc_ok env hok sm { d with content := prd.json }
  have h' : hasYES (env.oracle (Prompt.isRelative d.content reqDoc.content)) = true := by
    simpa [isRelatedDoc] using h
  refine ⟨prd,
    { sm with prds := repoSave sm.prds d.filename prd.json,
              events := sm.events ++ [Ev.prdsSave d.filename prd.json] ++ uf },
    (Ev.oracleCall (Prompt.isRelative d.content reqDoc.content) :: um) ++
      ([Ev.prdsSave d.filename prd.json] ++ uf), ?_, ?_, ?_, ?_⟩
  · simp only [update_prd, is_relative_to, aask, h', hmeq, hfeq]
  · simp only [hmprds, logEv]
  · simp only [hmev, logEv, List.append_assoc, List.cons_append, List.nil_append]
  · intro e he
    have hsplit : e = Ev.oracleCall (Prompt.isRelative d.content reqDoc.content) ∨
        e ∈ um ∨ e = Ev.prdsSave d.filename prd.json ∨ e ∈ uf := by
      simpa [List.mem_append, List.mem_cons, or_assoc] using he
    rcases hsplit with rfl | he2 | rfl | he2
    · rfl
    · exact hmu e he2
    · rfl
    · exact hfu e he2

theorem update_prd_none_ok (env : Env) (hok : EnvOk env) (s : St) (reqDoc : Document) :
    ∃ (prd : PrdOut) (s2 : St) (u : List Ev),
      update_prd env s reqDoc none =
        (Except.ok (some ⟨env.newFilename ++ ".json", prd.json⟩), s2) ∧
      s2.prds = repoSave s.prds (env.newFilename ++ ".json") prd.json ∧
      s2.events = s.events ++
        (Ev.oracleCall (Prompt.generate [reqDoc.content] searchInfo
          (if s.projectName ≠ "" then s.projectName else "") env.promptFormat) :: u) ∧
      (∀ e ∈ u, isGenerateCall e = false) := by
  obtain ⟨prd, hp⟩ := hok.parse_ok (env.oracle
    (Prompt.generate [reqDoc.content] searchInfo
      (if s.projectName ≠ "" then s.projectName else "") env.promptFormat))
  set sr := rename_workspace env
    (logEv s (Ev.oracleCall (Prompt.generate [reqDoc.content] searchInfo
      (if s.projectName ≠ "" then s.projectName else "") env.promptFormat)))
    (PrdArg.actionOutput prd) with hsrdef
  have key : update_prd env s reqDoc none =
      finishDoc env sr ⟨env.newFilename ++ ".json", prd.json⟩ := by
    rw [hsrdef]
    simp only [update_prd, run_new_requirement, aask_v1, aask, logEv, hp]
  obtain ⟨hdocs, hprds, hpath2, u2, hev, hu⟩ := rename_workspace_shape env
    (logEv s (Ev.oracleCall (Prompt.generate [reqDoc.content] searchInfo
      (if s.projectName ≠ "" then s.projectName else "") env.promptFormat)))
    (PrdArg.actionOutput prd)
  obtain ⟨uf, hfeq, hfu⟩ := finishDoc_ok env hok sr
    ⟨env.newFilename ++ ".json", prd.json⟩
  rw [← hsrdef] at hprds hev
  simp only [logEv] at hprds hev
  refine ⟨prd, (finishDoc env sr ⟨env.newFilename ++ ".json", prd.json⟩).2,
    u2 ++ ([Ev.prdsSave (env.newFilename ++ ".json") prd.json] ++ uf), ?_, ?_, ?_, ?_⟩
  · rw [key, hfeq]
  · rw [hfeq]
    simp only [hprds]
  · rw [hfeq]
    simp only [hev]
    simp [List.append_assoc]
  · intro e he
    have hsplit : e ∈ u2 ∨ e = Ev.prdsSave (env.newFilename ++ ".json") prd.json ∨
        e ∈ uf := by
      simpa [List.mem_append, List.mem_cons, or_assoc] using he
    rcases hsplit with he2 | rfl | he2
    · exact hu e he2
    · rfl
    · exact hfu e he2

/-- The specification of the scan loop on the success path: it returns the
input ChangeSet extended with exactly one merged document per related PRD,
in scan order, each keeping its original filename as its key; the trace
grows by non-generation events only. -/
theorem scanPrds_spec (env : Env) (reqDoc : Document) (hok : EnvOk env) :
    ∀ (docs : List Document) (cs : ChangeSet) (s : St),
      (docs.map Document.filename).Nodup →
      (∀ fn ∈ cs.map Prod.fst, fn ∉ docs.map Document.filename) →
      ∃ (cs2 : ChangeSet) (s2 : St) (tail : List Ev),
        scanPrds env reqDoc docs cs s = (Except.ok (cs ++ cs2), s2) ∧
        cs2.map Prod.fst =
          (docs.filter (isRelatedDoc env reqDoc.content)).map Document.filename ∧
        (∀ kv ∈ cs2, (kv.2 : Document).filename = kv.1) ∧
        s2.events = s.events ++ tail ∧
        (∀ e ∈ tail, isGenerateCall e = false) := by
  intro docs
  induction docs with
  | nil =>
    intro cs s hnd hdisj
    exact ⟨[], s, [], by simp [scanPrds], by simp, by simp, by simp, by simp⟩
  | cons d rest ih =>
    intro cs s hnd hdisj
    rw [List.map_cons] at hnd
    have hnds := List.nodup_cons.mp hnd
    by_cases hrel : isRelatedDoc env reqDoc.content d = true
    · obtain ⟨prd, sU, uU, hUeq, hUprds, hUev, hUu⟩ :=
        update_prd_related env hok s reqDoc d hrel
      have hcsd : d.filename ∉ cs.map Prod.fst := fun hmem =>
        hdisj d.filename hmem (by simp)
      have hdj2 : ∀ fn ∈ (cs ++ [(d.filename, { d with content := prd.json })]).map Prod.fst,
          fn ∉ rest.map Document.filename := by
        intro fn hfn
        simp only [List.map_append, List.mem_append, List.map_cons, List.map_nil,
          List.mem_singleton] at hfn
        rcases hfn with hfn | hfn
        · intro hmem
          exact hdisj fn hfn (by simp [hmem])
        · subst hfn
          exact hnds.1
      obtain ⟨cs2, s2, tail2, hseq, hkeys, hfns, hev2, hu2⟩ :=
        ih (cs ++ [(d.filename, { d with content := prd.json })]) sU hnds.2 hdj2
      refine ⟨(d.filename, { d with content := prd.json }) :: cs2, s2, uU ++ tail2,
        ?_, ?_, ?_, ?_, ?_⟩
      · simp only [scanPrds, hUeq]
        rw [show csInsert cs ({ d with content := prd.json } : Document).filename
              { d with content := prd.json } =
            cs ++ [(d.filename, { d with content := prd.json })] from
          csInsert_append cs d.filename _ hcsd]
        rw [hseq]
        simp [List.append_assoc]
      · simp [hrel, hkeys]
      · intro kv hkv
        rcases List.mem_cons.mp hkv with rfl | hkv
        · rfl
        · exact hfns kv hkv
      · rw [hev2, hUev]
        simp [List.append_assoc]
      · intro e he
        rcases List.mem_append.mp he with he | he
        · exact hUu e he
        · exact hu2 e he
    · have hrel2 : isRelatedDoc env reqDoc.content d = false := by
        simpa using hrel
      obtain ⟨cs2, s2, tail2, hseq, hkeys, hfns, hev2, hu2⟩ :=
        ih cs (logEv s (Ev.oracleCall (Prompt.isRelative d.content reqDoc.content)))
          hnds.2 (fun fn hfn hmem => hdisj fn hfn (by simp [hmem]))
      refine ⟨cs2, s2,
        Ev.oracleCall (Prompt.isRelative d.content reqDoc.content) :: tail2,
        ?_, ?_, hfns, ?_, ?_⟩
      · simp only [scanPrds, update_prd_not_related env s reqDoc d hrel2]
        exact hseq
      · simp [hrel2, hkeys]
      · rw [hev2]
        simp [logEv]
      · intro e he
        rcases List.mem_cons.mp he with rfl | he
        · rfl
        · exact hu2 e he

/-- The non-bug branch of `run`, phrased as an equation: classification,
stale bug-entry deletion, the scan, then the generate-if-empty step. -/
theorem run_not_bug_eq (env : Env) (s : St) (content : String)
    (hreq : repoGet s.docs REQUIREMENT_FILENAME = some content)
    (hno : hasYES (env.oracle (Prompt.isBugfix content)) = false) :
    run env s =
      (match scanPrds env ⟨REQUIREMENT_FILENAME, content⟩ (repoGetAll s.prds) []
          (postClassify s content) with
       | (Except.error e, s1) => (Except.error e, s1)
       | (Except.ok cs, s1) =>
         if cs.isEmpty then
           match update_prd env s1 ⟨REQUIREMENT_FILENAME, content⟩ none with
           | (Except.error e, s3) => (Except.error e, s3)
           | (Except.ok none, s3) => (Except.ok (RunResult.output cs), s3)
           | (Except.ok (some d), s3) =>
             (Except.ok (RunResult.output (csInsert cs d.filename d)), s3)
         else (Except.ok (RunResult.output cs), s1)) := by
  unfold run
  rw [hreq]
  simp only [is_bugfix, aask, logEv, hno, postClassify]
  simp [List.append_assoc]

/-! ## C1 -/

/-- C1: when the bug classifier's oracle response contains `YES`, the run
returns exactly the bug-fix record, the requirement document's stored
content becomes the empty string, and the PRD store is neither read nor
written (the trace gains exactly the classification call and the two docs
saves, none of which touch the PRD store, and the PRD repository is
unchanged). -/
theorem run_bugfix_route (env : Env) (s : St) (content : String)
    (hreq : repoGet s.docs REQUIREMENT_FILENAME = some content)
    (hyes : hasYES (env.oracle (Prompt.isBugfix content)) = true) :
    (run env s).1 = Except.ok (RunResult.bugFix ⟨BUGFIX_FILENAME⟩) ∧
    repoGet (run env s).2.docs REQUIREMENT_FILENAME = some "" ∧
    (run env s).2.prds = s.prds ∧
    (run env s).2.events = s.events ++
      [Ev.oracleCall (Prompt.isBugfix content), Ev.docsSave BUGFIX_FILENAME content,
        Ev.docsSave REQUIREMENT_FILENAME ""] ∧
    (run env s).2.events.filter isPrdEvent = s.events.filter isPrdEvent := by
  unfold run
  rw [hreq]
  simp only [is_bugfix, aask, logEv, hyes]
  simp [repoGet_save_self, isPrdEvent]

/-- Witness for `run_bugfix_route` at a concrete environment and state. -/
theorem run_bugfix_route_witness :
    repoGet stReq.docs REQUIREMENT_FILENAME = some "crash on login" ∧
    hasYES (envYes.oracle (Prompt.isBugfix "crash on login")) = true ∧
    (run envYes stReq).1 = Except.ok (RunResult.bugFix ⟨BUGFIX_FILENAME⟩) ∧
    (run envYes stReq).2.prds = stReq.prds :=
  ⟨by decide, by decide,
    (run_bugfix_route envYes stReq "crash on login" (by decide) (by decide)).1,
    (run_bugfix_route envYes stReq "crash on login" (by decide) (by decide)).2.2.1⟩

/-! ## C2 and C3 -/

/-- The concrete all-succeeding environment satisfies `EnvOk` (shared by the
witnesses of the success-path theorems). -/
theorem envAllOk_ok : EnvOk envAllOk :=
  ⟨fun _ => ⟨⟨"pn", "merged-json"⟩, rfl⟩, fun _ => ⟨[], rfl⟩,
    fun _ _ => rfl, fun _ => rfl⟩

/-- C2: on a run in which the bug classifier answers no, all collaborators
succeed, and at least one existing PRD is classified related, the returned
ChangeSet maps exactly the related (merged) documents — in scan order, never
a newly generated one — and each merged document keeps the filename it had
before the merge as its key. -/
theorem run_merge_changeset (env : Env) (s : St) (content : String)
    (hok : EnvOk env)
    (hreq : repoGet s.docs REQUIREMENT_FILENAME = some content)
    (hno : hasYES (env.oracle (Prompt.isBugfix content)) = false)
    (hnd : (s.prds.map Prod.fst).Nodup)
    (hk : relatedKeys env content s.prds ≠ []) :
    ∃ (cs : ChangeSet) (s2 : St),
      run env s = (Except.ok (RunResult.output cs), s2) ∧
      cs.map Prod.fst = relatedKeys env content s.prds ∧
      ∀ kv ∈ cs, (kv.2 : Document).filename = kv.1 := by
  obtain ⟨cs2, s2, tail, hseq, hkeys, hfns, hev, hu⟩ :=
    scanPrds_spec env ⟨REQUIREMENT_FILENAME, content⟩ hok (repoGetAll s.prds) []
      (postClassify s content)
      (by rw [repoGetAll_filenames]; exact hnd) (by simp)
  have hkeys2 : cs2.map Prod.fst = relatedKeys env content s.prds := by
    simpa [relatedKeys] using hkeys
  have hrun := run_not_bug_eq env s content hreq hno
  rw [hseq] at hrun
  have hne : cs2.isEmpty = false := by
    cases hcs : cs2 with
    | nil => exact absurd (by simpa [hcs] using hkeys2.symm) hk
    | cons kv rest => rfl
  simp only [List.nil_append, hne] at hrun
  exact ⟨cs2, s2, by simpa using hrun, hkeys2, hfns⟩

/-- Witness for `run_merge_changeset`: two existing PRDs of which exactly
one (`a.json`, content `ca`) is classified related. -/
theorem run_merge_changeset_witness :
    relatedKeys envAllOk "add x" stTwoPrds.prds = ["a.json"] ∧
    (∃ (cs : ChangeSet) (s2 : St),
      run envAllOk stTwoPrds = (Except.ok (RunResult.output cs), s2) ∧
      cs.map Prod.fst = relatedKeys envAllOk "add x" stTwoPrds.prds ∧
      ∀ kv ∈ cs, (kv.2 : Document).filename = kv.1) :=
  ⟨by decide,
    run_merge_changeset envAllOk stTwoPrds "add x" envAllOk_ok (by decide)
      (by decide) (by decide) (by decide)⟩

/-- C3: on a success-path run, the generation branch runs (a
generation-prompt oracle call appears in the trace) exactly when no existing
PRD was classified related — zero existing PRDs, or none matched — and in
that case the returned ChangeSet holds exactly one document, carrying the
newly allocated filename, persisted in the PRD store. -/
theorem run_generate_iff_no_related (env : Env) (s : St) (content : String)
    (hok : EnvOk env)
    (hreq : repoGet s.docs REQUIREMENT_FILENAME = some content)
    (hno : hasYES (env.oracle (Prompt.isBugfix content)) = false)
    (hnd : (s.prds.map Prod.fst).Nodup)
    (hev0 : s.events = []) :
    ∃ (cs : ChangeSet) (s2 : St),
      run env s = (Except.ok (RunResult.output cs), s2) ∧
      (relatedKeys env content s.prds = [] →
        ∃ d : Document, cs = [(env.newFilename ++ ".json", d)] ∧
          d.filename = env.newFilename ++ ".json" ∧
          repoGet s2.prds d.filename = some d.content ∧
          s2.events.any isGenerateCall = true) ∧
      (relatedKeys env content s.prds ≠ [] →
        s2.events.any isGenerateCall = false) := by
  obtain ⟨cs2, s2, tail, hseq, hkeys, hfns, hev, hu⟩ :=
    scanPrds_spec env ⟨REQUIREMENT_FILENAME, content⟩ hok (repoGetAll s.prds) []
      (postClassify s content)
      (by rw [repoGetAll_filenames]; exact hnd) (by simp)
  have hkeys2 : cs2.map Prod.fst = relatedKeys env content s.prds := by
    simpa [relatedKeys] using hkeys
  have hrun := run_not_bug_eq env s content hreq hno
  rw [hseq] at hrun
  simp only [List.nil_append] at hrun
  by_cases hk : relatedKeys env content s.prds = []
  · have hcs2 : cs2 = [] := by
      cases hcs : cs2 with
      | nil => rfl
      | cons kv rest => rw [hcs] at hkeys2; rw [hk] at hkeys2; simp at hkeys2
    subst hcs2
    obtain ⟨prd, s3, u, hgen, hprds3, hev3, hu3⟩ :=
      update_prd_none_ok env hok s2 ⟨REQUIREMENT_FILENAME, content⟩
    simp only [List.isEmpty_nil, if_true, hgen] at hrun
    refine ⟨csInsert []
        (⟨env.newFilename ++ ".json", prd.json⟩ : Document).filename
        ⟨env.newFilename ++ ".json", prd.json⟩, s3, hrun, fun _ => ?_, fun hkk => absurd hk hkk⟩
    refine ⟨⟨env.newFilename ++ ".json", prd.json⟩, by simp [csInsert], rfl, ?_, ?_⟩
    · rw [hprds3]
      exact repoGet_save_self _ _ _
    · rw [hev3]
      simp [isGenerateCall]
  · have hne : cs2.isEmpty = false := by
      cases hcs : cs2 with
      | nil => exact absurd (by simpa [hcs] using hkeys2.symm) hk
      | cons kv rest => rfl
    simp only [hne] at hrun
    refine ⟨cs2, s2, by simpa using hrun, fun hkk => absurd hkk hk, fun _ => ?_⟩
    rw [hev, List.any_eq_false]
    intro e he
    rcases List.mem_append.mp he with he | he
    · simp only [postClassify, hev0, List.nil_append, List.mem_cons,
        List.not_mem_nil, or_false] at he
      rcases he with rfl | rfl | rfl
      · simp [isGenerateCall]
      · simp [isGenerateCall]
      · simp [isGenerateCall]
    · simp [hu e he]

/-- Witness for `run_generate_iff_no_related`: zero existing PRDs, so the
generation branch runs and the ChangeSet has size one. -/
theorem run_generate_iff_no_related_witness :
    relatedKeys envAllOk "add x" stNoPrds.prds = [] ∧
    (∃ (cs : ChangeSet) (s2 : St),
      run envAllOk stNoPrds = (Except.ok (RunResult.output cs), s2) ∧
      (relatedKeys envAllOk "add x" stNoPrds.prds = [] →
        ∃ d : Document, cs = [(envAllOk.newFilename ++ ".json", d)] ∧
          d.filename = envAllOk.newFilename ++ ".json" ∧
          repoGet s2.prds d.filename = some d.content ∧
          s2.events.any isGenerateCall = true) ∧
      (relatedKeys envAllOk "add x" stNoPrds.prds ≠ [] →
        s2.events.any isGenerateCall = false)) :=
  ⟨by decide,
    run_generate_iff_no_related envAllOk stNoPrds "add x" envAllOk_ok (by decide)
      (by decide) (by decide) (by decide)⟩

/-! ## C4 -/

/-- C4 counterexample: with both a project path and a project name bound,
`_rename_workspace` does not "do nothing" — it still invokes the workspace
rename side effect (`rename_root`) with the bound name. -/
theorem rename_workspace_both_bound_counterexample :
    (rename_workspace envYes stBoth prdOther).events = [Ev.renameRoot "proj"] := by
  decide

/-- C4 amended: when both a project path and a project name are bound,
resolve leaves the bound name and path (and the stores) unchanged, but still
invokes the workspace rename side effect once, with the already-bound
name. -/
theorem rename_workspace_both_bound (env : Env) (s : St) (prd : PrdArg)
    (hpath : s.projectPath ≠ "") (hname : s.projectName ≠ "") :
    rename_workspace env s prd = logEv s (Ev.renameRoot s.projectName) := by
  simp [rename_workspace, hpath, hname]

/-- Witness for `rename_workspace_both_bound`. -/
theorem rename_workspace_both_bound_witness :
    stBoth.projectPath ≠ "" ∧ stBoth.projectName ≠ "" ∧
    rename_workspace envYes stBoth prdOther = logEv stBoth (Ev.renameRoot "proj") :=
  ⟨by decide, by decide, rename_workspace_both_bound envYes stBoth prdOther (by decide) (by decide)⟩

/-! ## C5 -/

/-- C5: when a project path is bound but no name is bound, resolve binds the
name to the last path segment and stops: the trace is unchanged (no rename
side effect) and the result does not depend on the candidate PRD, whose
project-name field is therefore not consulted. -/
theorem rename_workspace_path_only (env : Env) (s : St) (prd : PrdArg)
    (hpath : s.projectPath ≠ "") (hname : s.projectName = "") :
    rename_workspace env s prd = { s with projectName := pathName s.projectPath } := by
  simp [rename_workspace, hpath, hname]

/-- Witness for `rename_workspace_path_only`: the bound name is the path's
last segment and the trace stays empty, for two different candidate PRDs. -/
theorem rename_workspace_path_only_witness :
    stPathOnly.projectPath ≠ "" ∧ stPathOnly.projectName = "" ∧
    pathName stPathOnly.projectPath = "game_2048" ∧
    rename_workspace envYes stPathOnly prdOther =
      { stPathOnly with projectName := pathName stPathOnly.projectPath } ∧
    rename_workspace envYes stPathOnly (PrdArg.rawText "raw") =
      { stPathOnly with projectName := pathName stPathOnly.projectPath } :=
  ⟨by decide, by decide, by decide,
    rename_workspace_path_only envYes stPathOnly prdOther (by decide) (by decide),
    rename_workspace_path_only envYes stPathOnly (PrdArg.rawText "raw") (by decide) (by decide)⟩

/-! ## C6 -/

/-- C6 counterexample: a resolve call made after a name is already bound
(here with no path bound) still invokes the rename side effect, refuting
"never on a resolve call made after a name is already bound". -/
theorem rename_workspace_after_bound_counterexample :
    (rename_workspace envYes stNameOnly prdOther).events = [Ev.renameRoot "proj"] := by
  decide

/-- C6 amended: the rename side effect is invoked on every resolve call
except the one that derives the name from the project path (path bound, no
name bound); in particular it fires both when a name is newly bound from the
candidate PRD and again on calls made after a name is already bound. -/
theorem rename_workspace_rename_count (env : Env) (s : St) (prd : PrdArg) :
    countRenames (rename_workspace env s prd).events =
      countRenames s.events +
        (if s.projectPath ≠ "" ∧ s.projectName = "" then 0 else 1) := by
  unfold rename_workspace
  by_cases h : s.projectPath ≠ "" ∧ s.projectName = ""
  · simp [h]
  · by_cases h2 : s.projectName = ""
    · have hp : s.projectPath = "" := by
        by_contra hc
        exact h ⟨hc, h2⟩
      simp [h, h2, hp, logEv, countRenames, List.filter_append, isRenameRoot]
    · simp [h, h2, logEv, countRenames, List.filter_append, isRenameRoot]

/-! ## C7 -/

/-- C7 counterexample: on the empty requirement text the bug classifier does
invoke the text oracle (the call is recorded) and, with an oracle answering
`YES`, returns `true` — refuting "returns false deterministically without
invoking the text oracle". -/
theorem is_bugfix_empty_counterexample :
    (is_bugfix envYes stReq "").1 = true ∧
    (is_bugfix envYes stReq "").2.events = [Ev.oracleCall (Prompt.isBugfix "")] := by
  exact ⟨by decide, by decide⟩

/-- C7 amended: for the empty requirement text the bug classifier behaves
exactly as for any other text: it invokes the text oracle (one recorded
call) and returns true iff the oracle response contains `YES`. -/
theorem is_bugfix_empty_amended (env : Env) (s : St) :
    (is_bugfix env s "").1 = hasYES (env.oracle (Prompt.isBugfix "")) ∧
    (is_bugfix env s "").2.events = s.events ++ [Ev.oracleCall (Prompt.isBugfix "")] :=
  ⟨rfl, rfl⟩

/-! ## C8 -/

/-- C8 counterexample: with two existing PRDs and a first merge whose
structured parsing fails, the whole run returns the error (no ChangeSet is
returned) and the second PRD's relevance is never evaluated — refuting
"every other PRD in the scan is still evaluated". -/
theorem run_merge_failure_counterexample :
    (run envMergeFail stTwoPrds).1 = Except.error "merge parse failed" ∧
    Ev.oracleCall (Prompt.isRelative "cb" "add x") ∉ (run envMergeFail stTwoPrds).2.events := by
  exact ⟨rfl, by decide⟩

/-- C8 amended: a failure (parse error) while merging one PRD propagates and
aborts the entire run: the run returns that error instead of a ChangeSet,
and the PRDs after the failing one are never evaluated (their relevance
oracle calls never happen); only side effects already performed before the
failure remain. -/
theorem run_merge_failure_aborts (env : Env) (s : St) (content a ca e : String)
    (post : Repo)
    (hreq : repoGet s.docs REQUIREMENT_FILENAME = some content)
    (hno : hasYES (env.oracle (Prompt.isBugfix content)) = false)
    (hprds : s.prds = (a, ca) :: post)
    (hrel : hasYES (env.oracle (Prompt.isRelative ca content)) = true)
    (hfail : ∀ nm, env.parse (env.oracle (Prompt.merge content ca nm)) = Except.error e)
    (hev : s.events = []) :
    (run env s).1 = Except.error e ∧
    ∀ kv ∈ post, kv.2 ≠ ca →
      Ev.oracleCall (Prompt.isRelative kv.2 content) ∉ (run env s).2.events := by
  unfold run
  rw [hreq]
  simp only [is_bugfix, aask, logEv, hno]
  simp only [hprds, repoGetAll, List.map_cons, scanPrds, update_prd, is_relative_to,
    aask, logEv, hrel, merge, aask_v1]
  by_cases hn : s.projectName = ""
  · simp only [hn, if_pos rfl, hfail, hev]
    refine ⟨trivial, ?_⟩
    intro kv hkv hne
    simp [hne]
  · simp only [if_neg hn, hfail, hev]
    refine ⟨trivial, ?_⟩
    intro kv hkv hne
    simp [hne]

/-- Witness for `run_merge_failure_aborts` at a concrete environment. -/
theorem run_merge_failure_aborts_witness :
    repoGet stTwoPrds.docs REQUIREMENT_FILENAME = some "add x" ∧
    stTwoPrds.prds = ("a.json", "ca") :: [("b.json", "cb")] ∧
    (run envMergeFail stTwoPrds).1 = Except.error "merge parse failed" :=
  ⟨by decide, by decide,
    (run_merge_failure_aborts envMergeFail stTwoPrds "add x" "a.json" "ca"
      "merge parse failed" [("b.json", "cb")] (by decide) (by decide) (by decide)
      (by decide) (fun nm => rfl) (by decide)).1⟩

/-! ## C9 -/

/-- C9 counterexample: a failure of the competitive-analysis diagram
renderer propagates and aborts the whole run (no ChangeSet is returned) —
refuting "any failure in them is never propagated and never aborts the
run". -/
theorem run_render_failure_counterexample :
    (run envRenderFail stOnePrd).1 = Except.error "render failed" := rfl

/-- C9 amended: the diagram step is skipped silently when the chart field is
absent (no render attempt, no state change), but a failure of the diagram
renderer, or of the document exporter, is not caught: it propagates out of
the persist-and-side-effects tail of the PRD update (and hence aborts the
run, since nothing above catches it either). -/
theorem side_effect_failure_propagates (env : Env) (s t : St) (d d2 : Document)
    (m m2 : List (String × String)) (qc e e2 : String)
    (h1 : env.jsonLoads d.content = Except.ok m)
    (h2 : lookupField m "Competitive Quadrant Chart" = some qc)
    (h3 : qc ≠ "")
    (h4 : env.renderMermaid qc (competitivePath d.filename) = Except.error e)
    (h5 : env.jsonLoads d2.content = Except.ok m2)
    (h6 : lookupField m2 "Competitive Quadrant Chart" = none)
    (h7 : env.savePdf d2 = Except.error e2) :
    (finishDoc env s d).1 = Except.error e ∧
    (save_competitive_analysis env t d2).1 = Except.ok () ∧
    (save_competitive_analysis env t d2).2 = t ∧
    (finishDoc env t d2).1 = Except.error e2 := by
  refine ⟨?_, ?_, ?_, ?_⟩
  · simp only [finishDoc, save_competitive_analysis, h1, h2, logEv]
    rw [if_neg h3]
    simp [h4]
  · simp [save_competitive_analysis, h5, h6]
  · simp [save_competitive_analysis, h5, h6]
  · simp [finishDoc, save_competitive_analysis, save_pdf, h5, h6, h7, logEv]

/-- Witness for `side_effect_failure_propagates`. -/
theorem side_effect_failure_propagates_witness :
    envSideFail.jsonLoads "with-chart" =
      Except.ok [("Competitive Quadrant Chart", "chart-src")] ∧
    envSideFail.renderMermaid "chart-src" (competitivePath "a.json") =
      Except.error "render failed" ∧
    (finishDoc envSideFail stOnePrd ⟨"a.json", "with-chart"⟩).1 =
      Except.error "render failed" ∧
    (finishDoc envSideFail stOnePrd ⟨"b.json", "no-chart"⟩).1 =
      Except.error "pdf failed" :=
  ⟨rfl, rfl,
    (side_effect_failure_propagates envSideFail stOnePrd stOnePrd
      ⟨"a.json", "with-chart"⟩ ⟨"b.json", "no-chart"⟩
      [("Competitive Quadrant Chart", "chart-src")] [] "chart-src"
      "render failed" "pdf failed" rfl (by decide) (by decide) rfl
      rfl (by decide) rfl).1,
    (side_effect_failure_propagates envSideFail stOnePrd stOnePrd
      ⟨"a.json", "with-chart"⟩ ⟨"b.json", "no-chart"⟩
      [("Competitive Quadrant Chart", "chart-src")] [] "chart-src"
      "render failed" "pdf failed" rfl (by decide) (by decide) rfl
      rfl (by decide) rfl).2.2.2⟩

/-! ## C10 -/

/-- C10: a merge performed while no project name is bound first binds the
name to the last segment of the configured project path: the merge prompt
sent to the oracle embeds that path-derived name, and after the
name-resolution call that follows the oracle response the bound name is
still the path-derived one — the regenerated PRD's project-name field is
never used to bind the name during a merge. -/
theorem merge_binds_path_name (env : Env) (s : St) (reqDoc prdDoc : Document)
    (hname : s.projectName = "")
    (hpath : pathName s.projectPath ≠ "") :
    Ev.oracleCall (Prompt.merge reqDoc.content prdDoc.content (pathName s.projectPath)) ∈
      (merge env s reqDoc prdDoc).2.events ∧
    (merge env s reqDoc prdDoc).2.projectName = pathName s.projectPath := by
  unfold merge aask_v1 aask logEv
  simp only [hname, if_true]
  cases hc : env.parse (env.oracle
      (Prompt.merge reqDoc.content prdDoc.content (pathName s.projectPath))) with
  | error e => simp
  | ok prd => simp [rename_workspace, hpath, logEv]

/-- Witness for `merge_binds_path_name`: with the path `/tmp/game_2048`
bound and no name, the merge prompt embeds `game_2048` and the final bound
name is `game_2048`. -/
theorem merge_binds_path_name_witness :
    stPathOnly.projectName = "" ∧
    pathName stPathOnly.projectPath = "game_2048" ∧
    Ev.oracleCall (Prompt.merge "add x" "old prd" (pathName stPathOnly.projectPath)) ∈
      (merge envYes stPathOnly ⟨REQUIREMENT_FILENAME, "add x"⟩ ⟨"a.json", "old prd"⟩).2.events ∧
    (merge envYes stPathOnly ⟨REQUIREMENT_FILENAME, "add x"⟩ ⟨"a.json", "old prd"⟩).2.projectName =
      pathName stPathOnly.projectPath :=
  ⟨by decide, by decide,
    (merge_binds_path_name envYes stPathOnly ⟨REQUIREMENT_FILENAME, "add x"⟩
      ⟨"a.json", "old prd"⟩ (by decide) (by decide)).1,
    (merge_binds_path_name envYes stPathOnly ⟨REQUIREMENT_FILENAME, "add x"⟩
      ⟨"a.json", "old prd"⟩ (by decide) (by decide)).2⟩

end WritePrd
